import Mathlib

/-!
Verification of the B2MML master-recipe compiler
(`generate_b2mml_master_recipe` in `Master Recipe Generator.py`).

The compiler takes a parsed resource-capability catalog, a list of candidate
assignment solutions, the id of the optimal solution, and a parsed general
recipe, and produces a B2MML batch-information document: a formula section of
resolved parameters, a procedure-logic section (steps, transitions, links) and
a recipe-elements section.  The development below embeds the data model and the
compile pass, and proves the documented invariants about it.

Strings are manipulated through executable character-list helpers so that every
definition evaluates inside the kernel.  The only non-determinism in the source
(the `uuid.uuid4()` fallback for recipe-element identifiers) is modelled by an
injected token generator keyed by the recipe-element counter, which is the call
order of the generator in the source.
-/

namespace MasterRecipe

/-! ## String helpers (executable counterparts of the Python string operations) -/

/-- Python `str.replace(pat, rep)` on character lists: replaces every
non-overlapping occurrence of `pat` left to right.  Fuel-based so that it is
structurally recursive; `fuel = s.length` suffices because each step consumes
at least one character of `s` when `pat` is nonempty. -/
def replaceFuel (pat rep : List Char) : Nat → List Char → List Char
  | 0, s => s
  | _ + 1, [] => []
  | fuel + 1, c :: rest =>
    if pat.isPrefixOf (c :: rest) then
      rep ++ replaceFuel pat rep fuel ((c :: rest).drop pat.length)
    else
      c :: replaceFuel pat rep fuel rest

/-- Python `str.replace` (the source only ever calls it with a nonempty
pattern, so the empty-pattern case is irrelevant and left as the identity). -/
def strReplace (s pat rep : String) : String :=
  if pat.data.isEmpty then s else ⟨replaceFuel pat.data rep.data s.data.length s.data⟩

/-- Python `str.startswith` for a plain string argument. -/
def strStartsWith (s p : String) : Bool :=
  p.data.isPrefixOf s.data

/-- Python `s[n:]`: drop the first `n` characters. -/
def strDrop (s : String) (n : Nat) : String :=
  ⟨s.data.drop n⟩

/-- Python `str.lower` (ASCII is all the source data uses). -/
def strLower (s : String) : String :=
  ⟨s.data.map Char.toLower⟩

/-- Python `'/' in s`. -/
def strContainsSlash (s : String) : Bool :=
  s.data.contains '/'

/-- Python `s.split('/')[-1]`: the suffix after the last `'/'`. -/
def lastSlashSegment (s : String) : String :=
  ⟨(s.data.reverse.takeWhile (fun c => c ≠ '/')).reverse⟩

/-- Python `f"{n:03d}"`: decimal representation left-padded with zeros to at
least three digits. -/
def pad3 (n : Nat) : String :=
  let s := toString n
  if s.length < 3 then ⟨List.replicate (3 - s.length) '0'⟩ ++ s else s

/-- Python truthiness of an optional string: `None` and `""` are falsy. -/
def strTruthy : Option String → Bool
  | none => false
  | some s => s ≠ ""

/-- The source writes `if not param_id: param_id = 'null'`: a falsy resolution
result (absent or empty) is replaced by the literal null marker. -/
def orNull : Option String → String
  | none => "null"
  | some s => if s = "" then "null" else s

/-! ## Data model

Shapes of the four JSON inputs, as the compiler reads them:
`parsed_recipe_output.json` (general recipe), `solutions.json`,
`optimization_report.json` (only the optimal solution id is read), and
`parsed_resource_capabilities_output.json` (the resource catalog). -/

/-- An abstract process parameter of the general recipe. -/
structure Parameter where
  ID : String
  Description : String
  Key : String
  UnitOfMeasure : String
  DataType : String
  ValueString : String
deriving DecidableEq

/-- One abstract operation of the general recipe. -/
structure ProcessElement where
  ID : String
  Description : String
  Parameters : List Parameter
deriving DecidableEq

/-- The parsed general recipe. -/
structure GeneralRecipe where
  ID : String
  ProcessElements : List ProcessElement
deriving DecidableEq

/-- A matched-property descriptor inside an assignment's capability detail. -/
structure MatchedProperty where
  property_id : String
  property_name : String
  property_unit : String
deriving DecidableEq

/-- A capability detail of an assignment. -/
structure CapabilityDetail where
  capability_name : String
  matched_properties : List MatchedProperty
deriving DecidableEq

/-- One assignment record of a solution: binds a process element (by id) to a
resource. -/
structure Assignment where
  step_id : String
  resource : String
  capabilities : List String
  capability_details : List CapabilityDetail
deriving DecidableEq

/-- A candidate assignment solution. -/
structure Solution where
  solution_id : Int
  assignments : List Assignment
deriving DecidableEq

/-- A named capability inside a catalog record. -/
structure CapabilityEntry where
  capability_name : String
deriving DecidableEq

/-- A property descriptor of a catalog record; `propertyRealizedBy` is absent
(`None`) for some properties, which the source reads with `.get`. -/
structure PropDesc where
  property_name : String
  propertyRealizedBy : Option String
deriving DecidableEq

/-- One capability record of the resource catalog.  `realized_by` is the
(possibly empty) list the source reads with `.get('realized_by')`; Python
truthiness of that value is emptiness of the list. -/
structure CapabilityData where
  capability : List CapabilityEntry
  properties : List PropDesc
  realized_by : List String
deriving DecidableEq

/-- The resource catalog: a mapping from resource name to capability records.
Modelled as an association list looked up by key, matching the single
`resource_name in resources` / `resources[resource_name]` read pattern. -/
def Resources : Type := List (String × List CapabilityData)

/-- Python `resources[name]` guarded by `name in resources`. -/
def lookupResource (resources : Resources) (name : String) : Option (List CapabilityData) :=
  (List.find? (fun p => p.1 = name) resources).map (fun p => p.2)

/-! ## PropertyResolver: `find_property_realized_by` -/

/-- The record-scanning loop of `find_property_realized_by`: accept a record
only if one of its capability names equals `capability_name`; inside an
accepted record look for an exact `property_name` match first and return its
`propertyRealizedBy` (even when that field is absent), then retry the
properties case-insensitively; otherwise move to the next record. -/
def findInRecords (capability_name property_name : String) :
    List CapabilityData → Option String
  | [] => none
  | cd :: rest =>
    if cd.capability.any (fun c => c.capability_name = capability_name) then
      match cd.properties.find? (fun p => p.property_name = property_name) with
      | some p => p.propertyRealizedBy
      | none =>
        match cd.properties.find? (fun p => strLower p.property_name = strLower property_name) with
        | some p => p.propertyRealizedBy
        | none => findInRecords capability_name property_name rest
    else
      findInRecords capability_name property_name rest

/-- The helper `find_property_realized_by(resource_name, capability_name,
property_name)` of the source: `None` for an unknown resource, otherwise the
record scan above. -/
def find_property_realized_by (resources : Resources)
    (resource_name capability_name property_name : String) : Option String :=
  match lookupResource resources resource_name with
  | none => none
  | some records => findInRecords capability_name property_name records

/-! ## ParameterFormatter helpers -/

/-- The source's `map_data_type`: a fixed table with unknown tags passed
through. -/
def map_data_type (json_type : String) : String :=
  if json_type = "xs:int" then "integer"
  else if json_type = "xs:double" then "double"
  else if json_type = "int" then "integer"
  else if json_type = "double" then "double"
  else if json_type = "duration" then "duration"
  else json_type

/-- The source's `map_unit`: a fixed table of unit URIs, with the last path
segment (or the literal string when it has no slash) as fallback. -/
def map_unit (unit_uri : String) : String :=
  if unit_uri = "http://si-digital-framework.org/SI/units/second" then "Sekunde"
  else if unit_uri = "http://si-digital-framework.org/SI/units/litre" then "Liter"
  else if unit_uri = "http://si-digital-framework.org/SI/units/degreeCelsius" then "Grad Celsius"
  else if unit_uri = "http://qudt.org/vocab/unit/REV-PER-MIN" then "Umdrehungen pro Minute"
  else if unit_uri = "http://qudt.org/vocab/unit/PERCENT" then "Prozent"
  else if unit_uri = "http://qudt.org/vocab/unit/CYC-PER-SEC" then "Zyklen pro Sekunde"
  else if strContainsSlash unit_uri then lastSlashSegment unit_uri
  else unit_uri

/-- Value normalization: strip a leading `>=` or `<=` prefix. -/
def normalizeValue (s : String) : String :=
  if strStartsWith s ">=" || strStartsWith s "<=" then strDrop s 2 else s

/-- The source's `resource_short`: drop the `"resource: "` and `"2025-04_"`
substrings from the resource name. -/
def resourceShort (r : String) : String :=
  strReplace (strReplace r "resource: " "") "2025-04_" ""

/-! ## DocumentAssembler: the compile pass -/

/-- Python dict read: the value of the last insertion for a key, `None` when
the key is absent.  The mapping list records insertions left to right. -/
def dictGet : List (String × String) → String → Option String
  | [], _ => none
  | e :: rest, k =>
    match dictGet rest k with
    | some v => some v
    | none => if e.1 = k then some e.2 else none

/-- The assignment-lookup loop the source repeats before each pass: the first
assignment of the optimal solution whose `step_id` equals the process-element
id. -/
def findAssignment (sol : Solution) (peId : String) : Option Assignment :=
  sol.assignments.find? (fun a => a.step_id = peId)

/-- The process elements that have a matching assignment, paired with it, in
source order.  Every pass of the source (formula, steps, recipe elements)
iterates over exactly this sequence: elements without an assignment are
skipped everywhere, and the recipe-element pass's sort by
`recipe_element_number` is the identity on this already-ordered list. -/
def assignedPairs (sol : Solution) (pes : List ProcessElement) :
    List (ProcessElement × Assignment) :=
  pes.filterMap (fun pe => (findAssignment sol pe.ID).map (fun a => (pe, a)))

/-- Generic parameter resolution (the non-Dosing branch): scan the
assignment's capability details; in each detail take the first matched
property whose `property_id` equals the parameter's `Key` and whose
`property_unit` equals its `UnitOfMeasure` and resolve its `property_name`
through the catalog; a falsy result (absent or empty, Python truthiness)
falls through to the next capability detail and compiles to the null marker
either way. -/
def resolveParamGeneric (resources : Resources) (a : Assignment) (param : Parameter) :
    Option String :=
  go a.capability_details
where
  go : List CapabilityDetail → Option String
    | [] => none
    | cd :: rest =>
      match cd.matched_properties.find?
          (fun mp => mp.property_id = param.Key && mp.property_unit = param.UnitOfMeasure) with
      | some mp =>
        let r := find_property_realized_by resources a.resource cd.capability_name mp.property_name
        if strTruthy r then r else go rest
      | none => go rest

/-- Parameter-id resolution: the hard-coded special case for the Dosing
element bypasses the generic key-and-unit matching and always resolves
property `Litre` under capability `Dosing`. -/
def resolveParamId (resources : Resources) (a : Assignment) (pe : ProcessElement)
    (param : Parameter) : Option String :=
  if pe.ID = "Dosing001" && param.ID = "Dosing_Amount001" then
    find_property_realized_by resources a.resource "Dosing" "Litre"
  else
    resolveParamGeneric resources a param

/-- One entry of the formula section. -/
structure FormulaParam where
  id : String
  description : String
  parameterType : String
  parameterSubType : String
  valueString : String
  dataInterpretation : String
  dataType : String
  unitOfMeasure : String
deriving DecidableEq

/-- The formula entry the source emits for one parameter, with the global
parameter counter at `counter`. -/
def mkFormulaParam (resources : Resources) (a : Assignment) (pe : ProcessElement)
    (param : Parameter) (counter : Nat) : FormulaParam :=
  { id := pad3 counter ++ ":" ++ orNull (resolveParamId resources a pe param)
    description := resourceShort a.resource ++ "_" ++ strReplace param.Description " " "_"
    parameterType := "ProcessParameter"
    parameterSubType := "ST"
    valueString := normalizeValue param.ValueString
    dataInterpretation := "Constant"
    dataType := map_data_type param.DataType
    unitOfMeasure := map_unit param.UnitOfMeasure }

/-- The inner loop of the formula pass: one entry and one
`param_mapping[param['ID']] = formatted_param_id` insertion per parameter,
incrementing the global counter each time. -/
def formulaForParams (resources : Resources) (pe : ProcessElement) (a : Assignment) :
    List Parameter → Nat → List FormulaParam × List (String × String)
  | [], _ => ([], [])
  | p :: rest, counter =>
    let fp := mkFormulaParam resources a pe p counter
    let (fs, ms) := formulaForParams resources pe a rest (counter + 1)
    (fp :: fs, (p.ID, fp.id) :: ms)

/-- The outer loop of the formula pass over the assigned process elements; the
global counter is threaded through, never reset. -/
def formulaForPairs (resources : Resources) :
    List (ProcessElement × Assignment) → Nat → List FormulaParam × List (String × String)
  | [], _ => ([], [])
  | (pe, a) :: rest, counter =>
    let (fs1, ms1) := formulaForParams resources pe a pe.Parameters counter
    let (fs2, ms2) := formulaForPairs resources rest (counter + pe.Parameters.length)
    (fs1 ++ fs2, ms1 ++ ms2)

/-! ## ControlFlowBuilder: steps, links, transitions -/

/-- A step of the procedure-logic section. -/
structure Step where
  id : String
  recipeElementId : String
  description : String
deriving DecidableEq

instance : Inhabited Step := ⟨⟨"", "", ""⟩⟩

/-- The capability name the source attaches to a step: the first capability
detail with a truthy `capability_name`, defaulting to `Unknown`. -/
def stepCapabilityName (a : Assignment) : String :=
  match a.capability_details.find? (fun cd => cd.capability_name ≠ "") with
  | some cd => cd.capability_name
  | none => "Unknown"

/-- The `realized_by` scan of the steps pass: the first catalog record of the
assigned resource that contains one of the assignment's capabilities and has a
truthy `realized_by` list yields that list's head. -/
def recipeElementRealizedBy (resources : Resources) (a : Assignment) : Option String :=
  match lookupResource resources a.resource with
  | none => none
  | some records =>
    match records.find?
        (fun cd => cd.capability.any (fun c => a.capabilities.contains c.capability_name)
          && !cd.realized_by.isEmpty) with
    | some cd => some (cd.realized_by.headD "")
    | none => none

/-- The recipe-element identifier issued at recipe-element counter `n`:
`<3-digit ordinal>:<realized-by reference>`, falling back to
`<ordinal>:<fresh token>` (a `uuid.uuid4()` in the source, injected here as
`uuidGen n`). -/
def mkRecipeElementId (resources : Resources) (uuidGen : Nat → String) (a : Assignment)
    (n : Nat) : String :=
  match recipeElementRealizedBy resources a with
  | some r => pad3 n ++ ":" ++ r
  | none => pad3 n ++ ":" ++ uuidGen n

/-- The operation step emitted for one assigned process element at
recipe-element counter `n` (the step counter is always `n + 1`). -/
def mkOpStep (resources : Resources) (uuidGen : Nat → String)
    (pa : ProcessElement × Assignment) (n : Nat) : Step :=
  { id := "S" ++ toString (n + 1)
    recipeElementId := mkRecipeElementId resources uuidGen pa.2 n
    description := pad3 n ++ ":" ++ resourceShort pa.2.resource ++ "_" ++ pa.1.Description
      ++ ":" ++ stepCapabilityName pa.2 }

/-- Map with an explicit counter threaded left to right: the shape of every
single counter-incrementing loop of the source. -/
def mapCtr (f : α → Nat → β) : Nat → List α → List β
  | _, [] => []
  | c, x :: xs => f x c :: mapCtr f (c + 1) xs

/-- The full step list: the synthetic `Init` step, one operation step per
assigned process element (recipe-element counter starting at 1), and the
synthetic `End` step whose id continues the step counter. -/
def buildSteps (resources : Resources) (uuidGen : Nat → String)
    (pairs : List (ProcessElement × Assignment)) : List Step :=
  ⟨"S1", "Init", "Init"⟩ :: mapCtr (mkOpStep resources uuidGen) 1 pairs
    ++ [⟨"S" ++ toString (pairs.length + 2), "End", "End"⟩]

/-- A link of the procedure-logic section. -/
structure Link where
  id : String
  fromVal : String
  fromType : String
  toVal : String
  toType : String
  linkType : String
  depiction : String
  evaluationOrder : String
deriving DecidableEq

instance : Inhabited Link := ⟨⟨"", "", "", "", "", "", "", ""⟩⟩

/-- The pair of links iteration `i` of the link loop emits: `steps[i] → T(i+1)`
with id `L(2i+1)`, then `T(i+1) → steps[i+1]` with id `L(2i+2)`; the link
counter starts at 1 and increments once per emitted link. -/
def linkPair (steps : List Step) (i : Nat) : List Link :=
  [ { id := "L" ++ toString (2 * i + 1)
      fromVal := (steps.getD i default).id
      fromType := "Step"
      toVal := "T" ++ toString (i + 1)
      toType := "Transition"
      linkType := "ControlLink"
      depiction := "LineAndArrow"
      evaluationOrder := "1" },
    { id := "L" ++ toString (2 * i + 2)
      fromVal := "T" ++ toString (i + 1)
      fromType := "Transition"
      toVal := (steps.getD (i + 1) default).id
      toType := "Step"
      linkType := "ControlLink"
      depiction := "LineAndArrow"
      evaluationOrder := "1" } ]

/-- The link loop: `for i in range(len(steps) - 1)`, two links per iteration. -/
def buildLinks (steps : List Step) : List Link :=
  (List.range (steps.length - 1)).flatMap (linkPair steps)

/-- A transition of the procedure-logic section. -/
structure Transition where
  id : String
  condition : String
deriving DecidableEq

instance : Inhabited Transition := ⟨⟨"", ""⟩⟩

/-- The transition loop: `for i in range(1, len(steps))`; `T1` has the constant
condition `True`, every other transition (the last-one branch and the middle
branch of the source produce the same text) references the description of the
step preceding it. -/
def buildTransitions (steps : List Step) : List Transition :=
  (List.range (steps.length - 1)).map (fun j =>
    let i := j + 1
    { id := "T" ++ toString i
      condition :=
        if i = 1 then "True"
        else if i = steps.length - 1 then
          "Step " ++ (steps.getD (i - 1) default).description ++ " is Completed"
        else
          "Step " ++ (steps.getD (i - 1) default).description ++ " is Completed" })

/-! ## Recipe elements -/

/-- An operation recipe element of the output (the Begin/End markers carry only
an id and a type and are kept separately). -/
structure RecipeElement where
  id : String
  description : String
  recipeElementType : String
  actualEquipmentID : String
  paramRefs : List String
deriving DecidableEq

instance : Inhabited RecipeElement := ⟨⟨"", "", "", "", []⟩⟩

/-- The source's `pe_name_map` shortening of a process-element description. -/
def peShort (d : String) : String :=
  if d = "Mixing_of_Liquids" then "Mixing"
  else if d = "Dosing" then "Dosing"
  else if d = "Heating_of_liquids" then "Heating"
  else d

/-- The operation recipe element emitted for one assigned process element at
recipe-element counter `n`: the identifier and capability name recomputed here
equal the ones stored on the element during the steps pass, because both reads
are deterministic given the injected token generator.  A parameter reference is
emitted for every parameter whose id is in the mapping. -/
def mkRecipeOp (resources : Resources) (uuidGen : Nat → String)
    (mapping : List (String × String)) (pa : ProcessElement × Assignment) (n : Nat) :
    RecipeElement :=
  { id := mkRecipeElementId resources uuidGen pa.2 n
    description := resourceShort pa.2.resource ++ "_" ++ peShort pa.1.Description
      ++ "_Procedure:" ++ stepCapabilityName pa.2
    recipeElementType := "Operation"
    actualEquipmentID := resourceShort pa.2.resource ++ "Instance"
    paramRefs := pa.1.Parameters.filterMap (fun p => dictGet mapping p.ID) }

/-! ## The whole compile -/

/-- The compiled document: the sections of the emitted B2MML file that carry
computed content (fixed header boilerplate is omitted; the description string
and the Begin/End recipe-element markers are kept). -/
structure CompiledDoc where
  description : String
  masterRecipeID : String
  formula : List FormulaParam
  paramMapping : List (String × String)
  steps : List Step
  links : List Link
  transitions : List Transition
  recipeMarkers : List (String × String)
  recipeOps : List RecipeElement
deriving DecidableEq

instance : Inhabited CompiledDoc := ⟨⟨"", "", [], [], [], [], [], [], []⟩⟩

/-- The compile pass `generate_b2mml_master_recipe`: look up the optimal
solution by id (a missing id raises `ValueError` in the source, embedded as
`Except.error` with the source's message); then build the formula section and
parameter mapping, the step/transition/link graph, and the recipe elements. -/
def generate_b2mml_master_recipe (resources : Resources) (solutions : List Solution)
    (optimal_solution_id : Int) (general_recipe : GeneralRecipe) (uuidGen : Nat → String) :
    Except String CompiledDoc :=
  match solutions.find? (fun s => s.solution_id = optimal_solution_id) with
  | none =>
    .error ("Optimal solution " ++ toString optimal_solution_id
      ++ " not found in solutions.json")
  | some sol =>
    let pairs := assignedPairs sol general_recipe.ProcessElements
    let fm := formulaForPairs resources pairs 1
    let steps := buildSteps resources uuidGen pairs
    .ok
      { description := "This Batch Information includes the Master Recipe based on General Recipe "
          ++ general_recipe.ID ++ " and Optimal Solution " ++ toString optimal_solution_id
        masterRecipeID := "MasterRecipe_" ++ toString optimal_solution_id
        formula := fm.1
        paramMapping := fm.2
        steps := steps
        links := buildLinks steps
        transitions := buildTransitions steps
        recipeMarkers := [("Init", "Begin"), ("End", "End")]
        recipeOps := mapCtr (mkRecipeOp resources uuidGen fm.2) 1 pairs }

/-- The flattened allocation order of the formula pass: every parameter of
every assigned process element, in process-element-then-parameter order. -/
def allocParams (pairs : List (ProcessElement × Assignment)) :
    List (ProcessElement × Assignment × Parameter) :=
  pairs.flatMap (fun pa => pa.1.Parameters.map (fun p => (pa.1, pa.2, p)))

instance : Inhabited (ProcessElement × Assignment × Parameter) :=
  ⟨⟨"", "", []⟩, ⟨"", "", [], []⟩, ⟨"", "", "", "", "", ""⟩⟩

instance : Inhabited (ProcessElement × Assignment) :=
  ⟨⟨"", "", []⟩, ⟨"", "", [], []⟩⟩

instance : Inhabited FormulaParam := ⟨⟨"", "", "", "", "", "", "", ""⟩⟩

/-! ## Concrete sample inputs

The 1-element Heating scenario of the specification (one parameter with key
`Temp` and a known unit URI, one matching assignment), plus a Dosing element
for the hard-coded special case.  These drive the concrete evaluations of the
theorems below. -/

/-- A catalog with one resource offering a Heating capability whose
`Temperature` property is realized by `TempCtrl01`. -/
def cCatalog : Resources :=
  [("resource: 2025-04_HC20",
    [⟨[⟨"Heating"⟩], [⟨"Temperature", some "TempCtrl01"⟩], ["HeatOp01"]⟩])]

/-- The assignment binding the Heating element to the catalog resource. -/
def cAssign : Assignment :=
  ⟨"Heating001", "resource: 2025-04_HC20", ["Heating"],
    [⟨"Heating", [⟨"Temp", "Temperature",
      "http://si-digital-framework.org/SI/units/degreeCelsius"⟩]⟩]⟩

/-- The abstract temperature parameter (key `Temp`, known unit URI). -/
def cTempParam : Parameter :=
  ⟨"Temp_Param001", "Target Temperature", "Temp",
    "http://si-digital-framework.org/SI/units/degreeCelsius", "xs:double", ">=60"⟩

/-- The Heating process element. -/
def cHeatPE : ProcessElement := ⟨"Heating001", "Heating_of_liquids", [cTempParam]⟩

/-- The 1-element general recipe of the scenario. -/
def cRecipe : GeneralRecipe := ⟨"GR1", [cHeatPE]⟩

/-- The optimal solution (id 4) with the single assignment. -/
def cSol : Solution := ⟨4, [cAssign]⟩

/-- The loaded solutions list. -/
def cSols : List Solution := [cSol]

/-- A deterministic stand-in for the `uuid.uuid4()` token source. -/
def cUuid : Nat → String := fun n => "uuid-" ++ toString n

/-- The document compiled from the scenario. -/
def cDoc : CompiledDoc :=
  (generate_b2mml_master_recipe cCatalog cSols 4 cRecipe cUuid).toOption.getD default

/-- A Dosing amount parameter (for the hard-coded special case). -/
def cDosingParam : Parameter :=
  ⟨"Dosing_Amount001", "Dosing Amount", "Amount",
    "http://si-digital-framework.org/SI/units/litre", "xs:double", "5"⟩

/-- The Dosing process element. -/
def cDosingPE : ProcessElement := ⟨"Dosing001", "Dosing", [cDosingParam]⟩

/-! ## Structural lemmas about the counter-threaded loops -/

theorem mapCtr_length (f : α → Nat → β) (c : Nat) (l : List α) :
    (mapCtr f c l).length = l.length := by
  induction l generalizing c with
  | nil => rfl
  | cons x xs ih => simp [mapCtr, ih]

theorem mapCtr_getD (f : α → Nat → β) (l : List α) (c i : Nat) (d : β) (da : α)
    (h : i < l.length) :
    (mapCtr f c l).getD i d = f (l.getD i da) (c + i) := by
  induction l generalizing c i with
  | nil => simp at h
  | cons x xs ih =>
    cases i with
    | zero => simp [mapCtr]
    | succ j =>
      have hj : j < xs.length := by simpa using h
      simp only [mapCtr, List.getD_cons_succ]
      rw [ih _ _ hj]
      congr 1
      omega

theorem mapCtr_append (f : α → Nat → β) (c : Nat) (l1 l2 : List α) :
    mapCtr f c (l1 ++ l2) = mapCtr f c l1 ++ mapCtr f (c + l1.length) l2 := by
  induction l1 generalizing c with
  | nil => simp [mapCtr]
  | cons x xs ih =>
    rw [List.cons_append]
    simp only [mapCtr, List.length_cons]
    rw [ih, show c + (xs.length + 1) = c + 1 + xs.length by omega]
    rfl

theorem mapCtr_map (f : β → Nat → γ) (g : α → β) (c : Nat) (l : List α) :
    mapCtr f c (l.map g) = mapCtr (fun x k => f (g x) k) c l := by
  induction l generalizing c with
  | nil => rfl
  | cons x xs ih => simp [mapCtr, ih]

theorem mapCtr_map_out (f : α → Nat → β) (g : β → γ) (h : α → γ) (c : Nat) (l : List α)
    (hgf : ∀ x k, g (f x k) = h x) :
    (mapCtr f c l).map g = l.map h := by
  induction l generalizing c with
  | nil => rfl
  | cons x xs ih => simp [mapCtr, hgf, ih]

/-! ## The formula pass flattened along the allocation order -/

theorem formulaForParams_eq (resources : Resources) (pe : ProcessElement) (a : Assignment)
    (params : List Parameter) (c : Nat) :
    formulaForParams resources pe a params c =
      (mapCtr (fun p k => mkFormulaParam resources a pe p k) c params,
       mapCtr (fun p k => (p.ID, (mkFormulaParam resources a pe p k).id)) c params) := by
  induction params generalizing c with
  | nil => rfl
  | cons p rest ih => simp [formulaForParams, mapCtr, ih]

theorem formulaForPairs_eq (resources : Resources)
    (pairs : List (ProcessElement × Assignment)) (c : Nat) :
    formulaForPairs resources pairs c =
      (mapCtr (fun t k => mkFormulaParam resources t.2.1 t.1 t.2.2 k) c (allocParams pairs),
       mapCtr (fun t k => (t.2.2.ID, (mkFormulaParam resources t.2.1 t.1 t.2.2 k).id)) c
         (allocParams pairs)) := by
  induction pairs generalizing c with
  | nil => rfl
  | cons pa rest ih =>
    obtain ⟨pe, a⟩ := pa
    simp only [formulaForPairs, formulaForParams_eq, ih, allocParams, List.flatMap_cons,
      mapCtr_append, List.length_map, mapCtr_map]

theorem allocParams_length (pairs : List (ProcessElement × Assignment)) :
    (allocParams pairs).length =
      (pairs.map (fun pa => pa.1.Parameters.length)).sum := by
  induction pairs with
  | nil => rfl
  | cons pa rest ih =>
    simp only [allocParams, List.flatMap_cons, List.length_append, List.length_map,
      List.map_cons, List.sum_cons] at ih ⊢
    rw [ih]

/-! ## Dictionary lemmas (Python dict semantics: the last insertion wins) -/

theorem dictGet_eq_none_of_not_mem (m : List (String × String)) (k : String)
    (h : k ∉ m.map Prod.fst) : dictGet m k = none := by
  induction m with
  | nil => rfl
  | cons e rest ih =>
    simp only [List.map_cons, List.mem_cons] at h
    push_neg at h
    simp [dictGet, ih h.2, h.1.symm]

theorem dictGet_isSome_of_mem (m : List (String × String)) (k : String)
    (h : k ∈ m.map Prod.fst) : (dictGet m k).isSome := by
  induction m with
  | nil => simp at h
  | cons e rest ih =>
    simp only [List.map_cons, List.mem_cons] at h
    by_cases hr : k ∈ rest.map Prod.fst
    · have := ih hr
      obtain ⟨v, hv⟩ := Option.isSome_iff_exists.mp this
      simp [dictGet, hv]
    · have hk : e.1 = k := by
        rcases h with h | h
        · exact h.symm
        · exact absurd h hr
      simp [dictGet, dictGet_eq_none_of_not_mem rest k hr, hk]

theorem dictGet_getD_of_nodup (m : List (String × String))
    (hnd : (m.map Prod.fst).Nodup) (i : Nat) (h : i < m.length) (d : String × String) :
    dictGet m ((m.getD i d).1) = some ((m.getD i d).2) := by
  induction m generalizing i with
  | nil => simp at h
  | cons e rest ih =>
    simp only [List.map_cons, List.nodup_cons] at hnd
    cases i with
    | zero =>
      simp only [List.getD_cons_zero]
      simp [dictGet, dictGet_eq_none_of_not_mem rest e.1 hnd.1]
    | succ j =>
      have hj : j < rest.length := by simpa using h
      have hrec := ih hnd.2 j hj
      rw [List.getD_cons_succ, List.getD_eq_getElem rest d hj]
      rw [List.getD_eq_getElem rest d hj] at hrec
      simp [dictGet, hrec]

theorem filterMap_eq_map_getD (l : List α) (f : α → Option String)
    (h : ∀ x ∈ l, (f x).isSome) :
    l.filterMap f = l.map (fun x => (f x).getD "") := by
  induction l with
  | nil => rfl
  | cons x xs ih =>
    obtain ⟨v, hv⟩ := Option.isSome_iff_exists.mp (h x (List.mem_cons_self x xs))
    simp [List.filterMap_cons, hv, ih (fun y hy => h y (List.mem_cons_of_mem x hy))]

/-! ## Counting and control-flow lemmas -/

theorem assignedPairs_length (sol : Solution) (pes : List ProcessElement) :
    (assignedPairs sol pes).length =
      pes.countP (fun pe => (findAssignment sol pe.ID).isSome) := by
  induction pes with
  | nil => rfl
  | cons pe rest ih =>
    cases hfa : findAssignment sol pe.ID with
    | none =>
      simp only [assignedPairs, List.filterMap_cons, hfa, Option.map_none] at ih ⊢
      rw [List.countP_cons_of_neg _ _ (by simp [hfa])]
      exact ih
    | some a =>
      simp only [assignedPairs, List.filterMap_cons, hfa, Option.map_some] at ih ⊢
      rw [List.countP_cons_of_pos _ _ (by simp [hfa])]
      simp [ih]

theorem buildSteps_length (resources : Resources) (uuidGen : Nat → String)
    (pairs : List (ProcessElement × Assignment)) :
    (buildSteps resources uuidGen pairs).length = pairs.length + 2 := by
  simp [buildSteps, mapCtr_length]

theorem buildTransitions_length (steps : List Step) :
    (buildTransitions steps).length = steps.length - 1 := by
  simp [buildTransitions]

theorem linkPair_length (steps : List Step) (k : Nat) : (linkPair steps k).length = 2 := rfl

theorem buildLinks_length (steps : List Step) :
    (buildLinks steps).length = 2 * (steps.length - 1) := by
  simp only [buildLinks]
  generalize steps.length - 1 = n
  induction n with
  | zero => rfl
  | succ m ih =>
    rw [List.range_succ, List.flatMap_append, List.length_append, ih]
    simp [linkPair]
    omega

theorem flatMapPair_getD (f : Nat → List Link) (h2 : ∀ k, (f k).length = 2)
    (n i j : Nat) (hi : i < n) (hj : j < 2) (d : Link) :
    ((List.range n).flatMap f).getD (2 * i + j) d = (f i).getD j d := by
  induction n with
  | zero => simp at hi
  | succ m ih =>
    have hlen : ((List.range m).flatMap f).length = 2 * m := by
      clear ih hi
      induction m with
      | zero => rfl
      | succ p ihp =>
        rw [List.range_succ, List.flatMap_append, List.length_append, ihp]
        simp only [List.flatMap_cons, List.flatMap_nil, List.append_nil]
        rw [h2]
        omega
    rw [List.range_succ, List.flatMap_append]
    by_cases him : i < m
    · rw [List.getD_append _ _ _ _ (by rw [hlen]; omega)]
      exact ih him
    · have hieq : i = m := by omega
      subst hieq
      rw [List.getD_append_right _ _ _ _ (by rw [hlen]; omega)]
      rw [hlen]
      simp only [List.flatMap_cons, List.flatMap_nil, List.append_nil]
      congr 1
      omega

theorem buildTransitions_getD (steps : List Step) (j : Nat) (h : j < steps.length - 1) :
    (buildTransitions steps).getD j default =
      { id := "T" ++ toString (j + 1)
        condition :=
          if j + 1 = 1 then "True"
          else "Step " ++ (steps.getD j default).description ++ " is Completed" } := by
  have hlen : j < (buildTransitions steps).length := by simpa [buildTransitions_length]
  rw [List.getD_eq_getElem _ _ hlen]
  simp only [buildTransitions, List.getElem_map, List.getElem_range]
  congr 1
  by_cases h1 : j + 1 = 1
  · simp [h1]
  · rw [if_neg h1, if_neg h1, ite_self]
    simp [Nat.add_sub_cancel]

theorem mkRecipeElementId_eq (resources : Resources) (uuidGen : Nat → String)
    (a : Assignment) (m : Nat) :
    mkRecipeElementId resources uuidGen a m =
      pad3 m ++ ":" ++ ((recipeElementRealizedBy resources a).getD (uuidGen m)) := by
  unfold mkRecipeElementId
  cases recipeElementRealizedBy resources a <;> rfl

/-- Inversion of the compile on a successfully found solution: the output
document spelled out section by section. -/
theorem generate_ok_eq (resources : Resources) (solutions : List Solution)
    (osid : Int) (gr : GeneralRecipe) (uuidGen : Nat → String) (sol : Solution)
    (hfind : solutions.find? (fun s => s.solution_id = osid) = some sol) :
    generate_b2mml_master_recipe resources solutions osid gr uuidGen =
      .ok
        { description :=
            "This Batch Information includes the Master Recipe based on General Recipe "
              ++ gr.ID ++ " and Optimal Solution " ++ toString osid
          masterRecipeID := "MasterRecipe_" ++ toString osid
          formula := (formulaForPairs resources (assignedPairs sol gr.ProcessElements) 1).1
          paramMapping := (formulaForPairs resources (assignedPairs sol gr.ProcessElements) 1).2
          steps := buildSteps resources uuidGen (assignedPairs sol gr.ProcessElements)
          links := buildLinks (buildSteps resources uuidGen (assignedPairs sol gr.ProcessElements))
          transitions :=
            buildTransitions (buildSteps resources uuidGen (assignedPairs sol gr.ProcessElements))
          recipeMarkers := [("Init", "Begin"), ("End", "End")]
          recipeOps :=
            mapCtr
              (mkRecipeOp resources uuidGen
                (formulaForPairs resources (assignedPairs sol gr.ProcessElements) 1).2)
              1 (assignedPairs sol gr.ProcessElements) } := by
  unfold generate_b2mml_master_recipe
  rw [hfind]

/-- C2: for every compiled document, the number of emitted steps equals the
number of process elements having a matching assignment plus 2 (the synthetic
Init and End steps), the number of emitted transitions equals the number of
steps minus 1, and the number of emitted links equals 2 times the number of
transitions. -/
theorem claim_C2_counts (resources : Resources) (solutions : List Solution)
    (osid : Int) (gr : GeneralRecipe) (uuidGen : Nat → String) (sol : Solution)
    (doc : CompiledDoc)
    (hfind : solutions.find? (fun s => s.solution_id = osid) = some sol)
    (hgen : generate_b2mml_master_recipe resources solutions osid gr uuidGen = .ok doc) :
    doc.steps.length
        = gr.ProcessElements.countP (fun pe => (findAssignment sol pe.ID).isSome) + 2
      ∧ doc.transitions.length = doc.steps.length - 1
      ∧ doc.links.length = 2 * doc.transitions.length := by
  have hdoc := Except.ok.inj
    ((generate_ok_eq resources solutions osid gr uuidGen sol hfind).symm.trans hgen)
  subst hdoc
  refine ⟨?_, ?_, ?_⟩
  · rw [buildSteps_length, assignedPairs_length]
  · exact buildTransitions_length _
  · rw [buildLinks_length, buildTransitions_length]

/-- C3: for every compiled document with N steps, each step i (0-indexed,
i < N-1) produces the link pair (step i to transition i+1, transition i+1 to
step i+1), the links are emitted interleaved in exactly that order, and link
identifiers are assigned sequentially starting at 1 in that interleaved
order. -/
theorem claim_C3_links (resources : Resources) (solutions : List Solution)
    (osid : Int) (gr : GeneralRecipe) (uuidGen : Nat → String) (sol : Solution)
    (doc : CompiledDoc)
    (hfind : solutions.find? (fun s => s.solution_id = osid) = some sol)
    (hgen : generate_b2mml_master_recipe resources solutions osid gr uuidGen = .ok doc) :
    doc.links.length = 2 * (doc.steps.length - 1) ∧
    ∀ i, i + 1 < doc.steps.length →
      doc.links.getD (2 * i) default =
        { id := "L" ++ toString (2 * i + 1)
          fromVal := (doc.steps.getD i default).id
          fromType := "Step"
          toVal := "T" ++ toString (i + 1)
          toType := "Transition"
          linkType := "ControlLink"
          depiction := "LineAndArrow"
          evaluationOrder := "1" } ∧
      doc.links.getD (2 * i + 1) default =
        { id := "L" ++ toString (2 * i + 2)
          fromVal := "T" ++ toString (i + 1)
          fromType := "Transition"
          toVal := (doc.steps.getD (i + 1) default).id
          toType := "Step"
          linkType := "ControlLink"
          depiction := "LineAndArrow"
          evaluationOrder := "1" } := by
  have hdoc := Except.ok.inj
    ((generate_ok_eq resources solutions osid gr uuidGen sol hfind).symm.trans hgen)
  subst hdoc
  refine ⟨?_, ?_⟩
  · rw [buildLinks_length]
  · intro i hi
    replace hi : i + 1
        < (buildSteps resources uuidGen (assignedPairs sol gr.ProcessElements)).length := hi
    refine ⟨?_, ?_⟩
    · have h0 := flatMapPair_getD
        (linkPair (buildSteps resources uuidGen (assignedPairs sol gr.ProcessElements)))
        (fun k => rfl)
        ((buildSteps resources uuidGen (assignedPairs sol gr.ProcessElements)).length - 1)
        i 0 (by omega) (by omega) default
      exact h0.trans rfl
    · have h1 := flatMapPair_getD
        (linkPair (buildSteps resources uuidGen (assignedPairs sol gr.ProcessElements)))
        (fun k => rfl)
        ((buildSteps resources uuidGen (assignedPairs sol gr.ProcessElements)).length - 1)
        i 1 (by omega) (by omega) default
      exact h1.trans rfl

/-- C4 (amended): transition 1's guard condition is the literal constant
`True` (capitalized, as the source emits it), and every other transition's
guard condition is exactly the text `Step <preceding step's description> is
Completed`, where the preceding step is the step before the transition. -/
theorem claim_C4_guards (resources : Resources) (solutions : List Solution)
    (osid : Int) (gr : GeneralRecipe) (uuidGen : Nat → String) (sol : Solution)
    (doc : CompiledDoc)
    (hfind : solutions.find? (fun s => s.solution_id = osid) = some sol)
    (hgen : generate_b2mml_master_recipe resources solutions osid gr uuidGen = .ok doc) :
    0 < doc.transitions.length ∧
    (doc.transitions.getD 0 default).condition = "True" ∧
    ∀ j, 1 ≤ j → j < doc.transitions.length →
      (doc.transitions.getD j default).id = "T" ++ toString (j + 1) ∧
      (doc.transitions.getD j default).condition =
        "Step " ++ (doc.steps.getD j default).description ++ " is Completed" := by
  have hdoc := Except.ok.inj
    ((generate_ok_eq resources solutions osid gr uuidGen sol hfind).symm.trans hgen)
  subst hdoc
  have hsl : (buildSteps resources uuidGen (assignedPairs sol gr.ProcessElements)).length
      = (assignedPairs sol gr.ProcessElements).length + 2 := buildSteps_length _ _ _
  have htl : (buildTransitions
        (buildSteps resources uuidGen (assignedPairs sol gr.ProcessElements))).length
      = (buildSteps resources uuidGen (assignedPairs sol gr.ProcessElements)).length - 1 :=
    buildTransitions_length _
  refine ⟨by rw [htl, hsl]; omega, ?_, ?_⟩
  · rw [buildTransitions_getD _ 0 (by omega)]
    rfl
  · intro j hj1 hjlen
    rw [htl] at hjlen
    rw [buildTransitions_getD _ j hjlen]
    exact ⟨rfl, by rw [if_neg (by omega)]⟩

/-- C9: if the selected optimal solution id cannot be found among the loaded
solutions the compile aborts immediately with a descriptive error before
emitting any output; when the solution is found, the compile always produces
a document (per-element resolution gaps never abort it). -/
theorem claim_C9_error_policy (resources : Resources) (solutions : List Solution)
    (osid : Int) (gr : GeneralRecipe) (uuidGen : Nat → String) :
    (solutions.find? (fun s => s.solution_id = osid) = none →
      generate_b2mml_master_recipe resources solutions osid gr uuidGen =
        .error ("Optimal solution " ++ toString osid ++ " not found in solutions.json")) ∧
    (∀ sol, solutions.find? (fun s => s.solution_id = osid) = some sol →
      ∃ doc, generate_b2mml_master_recipe resources solutions osid gr uuidGen = .ok doc) := by
  refine ⟨?_, ?_⟩
  · intro h
    unfold generate_b2mml_master_recipe
    rw [h]
  · intro sol h
    exact ⟨_, generate_ok_eq resources solutions osid gr uuidGen sol h⟩

/-- C5: every issued formula-parameter identifier has the form
`<3-digit zero-padded ordinal>:<resolved-property-reference-or-null-marker>`
with ordinals densely increasing from 1 across the whole document in
process-element-then-parameter order, and every issued recipe-element
identifier has the form `<3-digit zero-padded ordinal>:<realized-by
reference>`, falling back to `<ordinal>:<fresh random token>` when no
realized-by reference is found, with its own independent per-element ordinal
counter in recipe order. -/
theorem claim_C5_identifier_contract (resources : Resources) (solutions : List Solution)
    (osid : Int) (gr : GeneralRecipe) (uuidGen : Nat → String) (sol : Solution)
    (doc : CompiledDoc)
    (hfind : solutions.find? (fun s => s.solution_id = osid) = some sol)
    (hgen : generate_b2mml_master_recipe resources solutions osid gr uuidGen = .ok doc) :
    doc.formula.length = (allocParams (assignedPairs sol gr.ProcessElements)).length ∧
    (∀ i, i < (allocParams (assignedPairs sol gr.ProcessElements)).length →
      (doc.formula.getD i default).id =
        pad3 (i + 1) ++ ":" ++
          orNull (resolveParamId resources
            ((allocParams (assignedPairs sol gr.ProcessElements)).getD i default).2.1
            ((allocParams (assignedPairs sol gr.ProcessElements)).getD i default).1
            ((allocParams (assignedPairs sol gr.ProcessElements)).getD i default).2.2)) ∧
    doc.recipeOps.length = (assignedPairs sol gr.ProcessElements).length ∧
    (∀ n, n < (assignedPairs sol gr.ProcessElements).length →
      (doc.recipeOps.getD n default).id =
        pad3 (n + 1) ++ ":" ++
          ((recipeElementRealizedBy resources
              ((assignedPairs sol gr.ProcessElements).getD n default).2).getD
            (uuidGen (n + 1)))) := by
  have hdoc := Except.ok.inj
    ((generate_ok_eq resources solutions osid gr uuidGen sol hfind).symm.trans hgen)
  subst hdoc
  refine ⟨?_, ?_, ?_, ?_⟩
  · simp only [formulaForPairs_eq]
    exact mapCtr_length _ _ _
  · intro i hi
    simp only [formulaForPairs_eq]
    rw [mapCtr_getD _ _ _ _ _ default hi, Nat.add_comm 1 i]
    rfl
  · exact mapCtr_length _ _ _
  · intro n hn
    rw [mapCtr_getD _ _ _ _ _ default hn, Nat.add_comm 1 n]
    exact mkRecipeElementId_eq resources uuidGen _ _

/-- C7: for every parameter value string, if it starts with the 2-character
prefix `>=` or `<=` the compiled value string is the input with that prefix
removed and nothing else changed, otherwise the value string is passed
through unchanged; in particular `>=60` compiles to `60` and `<=5.5`
compiles to `5.5`. -/
theorem claim_C7_value_normalization :
    (∀ t : String, normalizeValue (">=" ++ t) = t) ∧
    (∀ t : String, normalizeValue ("<=" ++ t) = t) ∧
    (∀ s : String, strStartsWith s ">=" = false → strStartsWith s "<=" = false →
      normalizeValue s = s) ∧
    normalizeValue ">=60" = "60" ∧
    normalizeValue "<=5.5" = "5.5" ∧
    (∀ (resources : Resources) (solutions : List Solution) (osid : Int)
      (gr : GeneralRecipe) (uuidGen : Nat → String) (sol : Solution) (doc : CompiledDoc),
      solutions.find? (fun s => s.solution_id = osid) = some sol →
      generate_b2mml_master_recipe resources solutions osid gr uuidGen = .ok doc →
      ∀ i, i < (allocParams (assignedPairs sol gr.ProcessElements)).length →
        (doc.formula.getD i default).valueString =
          normalizeValue
            ((allocParams
              (assignedPairs sol gr.ProcessElements)).getD i default).2.2.ValueString) := by
  have hge : ∀ t : String, normalizeValue (">=" ++ t) = t := by
    intro t
    have hd : (">=" ++ t).data = '>' :: '=' :: t.data := by
      rw [String.data_append]
      rfl
    unfold normalizeValue strStartsWith strDrop
    rw [hd]
    simp [List.isPrefixOf]
  have hle : ∀ t : String, normalizeValue ("<=" ++ t) = t := by
    intro t
    have hd : ("<=" ++ t).data = '<' :: '=' :: t.data := by
      rw [String.data_append]
      rfl
    unfold normalizeValue strStartsWith strDrop
    rw [hd]
    simp [List.isPrefixOf]
  refine ⟨hge, hle, ?_, by decide, by decide, ?_⟩
  · intro s h1 h2
    unfold normalizeValue
    rw [h1, h2]
    rfl
  · intro resources solutions osid gr uuidGen sol doc hfind hgen i hi
    have hdoc := Except.ok.inj
      ((generate_ok_eq resources solutions osid gr uuidGen sol hfind).symm.trans hgen)
    subst hdoc
    simp only [formulaForPairs_eq]
    rw [mapCtr_getD _ _ _ _ _ default hi]
    rfl

/-- C1: for every parameter of a process element that has a matching
assignment, the compile allocates exactly one formatted formula-parameter
identifier (the mapping enumerates the parameters in allocation order and, the
abstract parameter ids being distinct, binds each to the identifier of its own
formula entry), and every parameter reference emitted in that element's
recipe-element section equals the identifier allocated for that same abstract
parameter in the formula section. -/
theorem claim_C1_cross_section (resources : Resources) (solutions : List Solution)
    (osid : Int) (gr : GeneralRecipe) (uuidGen : Nat → String) (sol : Solution)
    (doc : CompiledDoc)
    (hfind : solutions.find? (fun s => s.solution_id = osid) = some sol)
    (hgen : generate_b2mml_master_recipe resources solutions osid gr uuidGen = .ok doc)
    (hnd : ((allocParams (assignedPairs sol gr.ProcessElements)).map
        (fun t => t.2.2.ID)).Nodup) :
    doc.paramMapping.map Prod.fst
        = (allocParams (assignedPairs sol gr.ProcessElements)).map (fun t => t.2.2.ID) ∧
    doc.formula.length = (allocParams (assignedPairs sol gr.ProcessElements)).length ∧
    (∀ i, i < (allocParams (assignedPairs sol gr.ProcessElements)).length →
      dictGet doc.paramMapping
          ((allocParams (assignedPairs sol gr.ProcessElements)).getD i default).2.2.ID
        = some ((doc.formula.getD i default).id)) ∧
    (∀ n, n < (assignedPairs sol gr.ProcessElements).length →
      (doc.recipeOps.getD n default).paramRefs
        = ((assignedPairs sol gr.ProcessElements).getD n default).1.Parameters.map
            (fun p => (dictGet doc.paramMapping p.ID).getD "")) := by
  have hdoc := Except.ok.inj
    ((generate_ok_eq resources solutions osid gr uuidGen sol hfind).symm.trans hgen)
  subst hdoc
  have hkeys :
      ((mapCtr
          (fun t k =>
            (t.2.2.ID,
              (mkFormulaParam resources t.2.1 t.1 t.2.2 k).id)) 1
          (allocParams (assignedPairs sol gr.ProcessElements))).map Prod.fst)
        = (allocParams (assignedPairs sol gr.ProcessElements)).map (fun t => t.2.2.ID) :=
    mapCtr_map_out _ _ _ _ _ (fun t k => rfl)
  refine ⟨?_, ?_, ?_, ?_⟩
  · simp only [formulaForPairs_eq]
    exact hkeys
  · simp only [formulaForPairs_eq]
    exact mapCtr_length _ _ _
  · intro i hi
    simp only [formulaForPairs_eq]
    have hnd2 :
        ((mapCtr
            (fun t k =>
              (t.2.2.ID,
                (mkFormulaParam resources t.2.1 t.1 t.2.2 k).id)) 1
            (allocParams (assignedPairs sol gr.ProcessElements))).map Prod.fst).Nodup := by
      rw [hkeys]
      exact hnd
    have hlen : i < (mapCtr
        (fun t k =>
          (t.2.2.ID,
            (mkFormulaParam resources t.2.1 t.1 t.2.2 k).id)) 1
        (allocParams (assignedPairs sol gr.ProcessElements))).length := by
      rw [mapCtr_length]
      exact hi
    have hD := dictGet_getD_of_nodup _ hnd2 i hlen default
    rw [mapCtr_getD _ _ _ _ _ default hi] at hD
    rw [mapCtr_getD _ _ _ _ _ default hi]
    exact hD
  · intro n hn
    rw [mapCtr_getD _ _ _ _ _ default hn]
    simp only [formulaForPairs_eq]
    refine filterMap_eq_map_getD _ _ ?_
    intro p hp
    apply dictGet_isSome_of_mem
    rw [hkeys]
    have hpa : (assignedPairs sol gr.ProcessElements).getD n default
        ∈ assignedPairs sol gr.ProcessElements := by
      rw [List.getD_eq_getElem _ _ hn]
      exact List.getElem_mem hn
    have ht : (((assignedPairs sol gr.ProcessElements).getD n default).1,
        ((assignedPairs sol gr.ProcessElements).getD n default).2, p)
        ∈ allocParams (assignedPairs sol gr.ProcessElements) := by
      unfold allocParams
      exact List.mem_flatMap.mpr
        ⟨(assignedPairs sol gr.ProcessElements).getD n default, hpa,
          List.mem_map.mpr ⟨p, hp, rfl⟩⟩
    exact List.mem_map.mpr ⟨_, ht, rfl⟩

/-- C6: property resolution scans the resource's capability records, accepts a
record only if its capability names contain the capability name, prefers an
exact property-name match over the case-insensitive fallback pass, returns the
realized-by reference of the first match, yields not-found (`none`, not an
error) for an unknown resource or when nothing matches, and the compile
substitutes the literal null marker in the emitted identifier instead of
aborting. -/
theorem claim_C6_property_resolution (resources : Resources) (r capName propName : String) :
    (lookupResource resources r = none →
      find_property_realized_by resources r capName propName = none) ∧
    (∀ records, lookupResource resources r = some records →
      find_property_realized_by resources r capName propName
        = findInRecords capName propName records) ∧
    (∀ (cd : CapabilityData) (rest : List CapabilityData),
      cd.capability.any (fun cc => cc.capability_name = capName) = false →
      findInRecords capName propName (cd :: rest) = findInRecords capName propName rest) ∧
    (∀ (cd : CapabilityData) (rest : List CapabilityData) (pr : PropDesc),
      cd.capability.any (fun cc => cc.capability_name = capName) = true →
      cd.properties.find? (fun q => q.property_name = propName) = some pr →
      findInRecords capName propName (cd :: rest) = pr.propertyRealizedBy) ∧
    (∀ (cd : CapabilityData) (rest : List CapabilityData) (pr : PropDesc),
      cd.capability.any (fun cc => cc.capability_name = capName) = true →
      cd.properties.find? (fun q => q.property_name = propName) = none →
      cd.properties.find? (fun q => strLower q.property_name = strLower propName) = some pr →
      findInRecords capName propName (cd :: rest) = pr.propertyRealizedBy) ∧
    (∀ (cd : CapabilityData) (rest : List CapabilityData),
      cd.capability.any (fun cc => cc.capability_name = capName) = true →
      cd.properties.find? (fun q => q.property_name = propName) = none →
      cd.properties.find? (fun q => strLower q.property_name = strLower propName) = none →
      findInRecords capName propName (cd :: rest) = findInRecords capName propName rest) ∧
    (∀ (a : Assignment) (pe : ProcessElement) (param : Parameter) (n : Nat),
      resolveParamId resources a pe param = none →
      (mkFormulaParam resources a pe param n).id = pad3 n ++ ":null") := by
  refine ⟨?_, ?_, ?_, ?_, ?_, ?_, ?_⟩
  · intro h
    unfold find_property_realized_by
    rw [h]
  · intro records h
    unfold find_property_realized_by
    rw [h]
  · intro cd rest h
    simp [findInRecords, h]
  · intro cd rest pr hacc hex
    simp [findInRecords, hacc, hex]
  · intro cd rest pr hacc hex hci
    simp [findInRecords, hacc, hex, hci]
  · intro cd rest hacc hex hci
    simp [findInRecords, hacc, hex, hci]
  · intro a pe param n h
    simp only [mkFormulaParam, h, orNull]
    rw [String.append_assoc, show (":" ++ "null" : String) = ":null" by decide]

/-- C10: for exactly the process element with id `Dosing001` and its parameter
with id `Dosing_Amount001`, the compiler bypasses the generic matching of the
parameter's key and unit against the assignment's capability details (the
result is independent of them) and always resolves property `Litre` under
capability `Dosing` for the assigned resource; every other parameter goes
through the generic key-and-unit matching path. -/
theorem claim_C10_dosing_special_case (resources : Resources) (a : Assignment)
    (pe : ProcessElement) (param : Parameter) :
    (pe.ID = "Dosing001" → param.ID = "Dosing_Amount001" →
      ∀ (details : List CapabilityDetail) (key unit : String),
        resolveParamId resources { a with capability_details := details } pe
            { param with Key := key, UnitOfMeasure := unit }
          = find_property_realized_by resources a.resource "Dosing" "Litre") ∧
    (¬(pe.ID = "Dosing001" ∧ param.ID = "Dosing_Amount001") →
      resolveParamId resources a pe param = resolveParamGeneric resources a param) := by
  refine ⟨?_, ?_⟩
  · intro h1 h2 details key unit
    simp [resolveParamId, h1, h2]
  · intro h
    unfold resolveParamId
    rw [if_neg (by simpa using h)]

/-- C8 (counterexample): the 1-element Heating scenario of the specification
compiles to 3 steps, not the 5 the claim states. -/
theorem claim_C8_steps_cex :
    (generate_b2mml_master_recipe cCatalog cSols 4 cRecipe cUuid).toOption.map
        (fun d => d.steps.length) = some 3
      ∧ (3 : Nat) ≠ 5 :=
  ⟨rfl, by decide⟩

/-- C8 (amended): the 1-element Heating scenario (one parameter, key `Temp`,
a known unit URI, one matching assignment) produces exactly 3 steps (Init,
Heating, End), 2 transitions, 4 links, and 1 formula parameter with ordinal
`001`. -/
theorem claim_C8_scenario :
    (generate_b2mml_master_recipe cCatalog cSols 4 cRecipe cUuid).toOption.map
        (fun d => (d.steps.length, d.transitions.length, d.links.length, d.formula.length,
          (d.formula.getD 0 default).id))
      = some (3, 2, 4, 1, "001:TempCtrl01") := rfl

/-- C4 (counterexample): the first transition's guard text is `True`, which
differs from the literal constant `true` the claim states. -/
theorem claim_C4_guards_cex :
    (generate_b2mml_master_recipe cCatalog cSols 4 cRecipe cUuid).toOption.map
        (fun d => (d.transitions.getD 0 default).condition) = some "True"
      ∧ ("True" : String) ≠ "true" :=
  ⟨rfl, by decide⟩

/-! ## Concrete witnesses -/

/-- Witness for C2 on the Heating scenario. -/
theorem claim_C2_counts_w :
    List.find? (fun s => s.solution_id = (4 : Int)) cSols = some cSol ∧
    generate_b2mml_master_recipe cCatalog cSols 4 cRecipe cUuid = .ok cDoc ∧
    (cDoc.steps.length
        = cRecipe.ProcessElements.countP (fun pe => (findAssignment cSol pe.ID).isSome) + 2
      ∧ cDoc.transitions.length = cDoc.steps.length - 1
      ∧ cDoc.links.length = 2 * cDoc.transitions.length) :=
  ⟨rfl, rfl, claim_C2_counts cCatalog cSols 4 cRecipe cUuid cSol cDoc rfl rfl⟩

/-- Witness for C3 on the Heating scenario: the first link pair. -/
theorem claim_C3_links_w :
    List.find? (fun s => s.solution_id = (4 : Int)) cSols = some cSol ∧
    generate_b2mml_master_recipe cCatalog cSols 4 cRecipe cUuid = .ok cDoc ∧
    0 + 1 < cDoc.steps.length ∧
    cDoc.links.getD 0 default =
      { id := "L1", fromVal := "S1", fromType := "Step", toVal := "T1",
        toType := "Transition", linkType := "ControlLink", depiction := "LineAndArrow",
        evaluationOrder := "1" } :=
  ⟨rfl, rfl, by decide,
    ((claim_C3_links cCatalog cSols 4 cRecipe cUuid cSol cDoc rfl rfl).2 0 (by decide)).1⟩

/-- Witness for the amended C4 on the Heating scenario. -/
theorem claim_C4_guards_w :
    List.find? (fun s => s.solution_id = (4 : Int)) cSols = some cSol ∧
    generate_b2mml_master_recipe cCatalog cSols 4 cRecipe cUuid = .ok cDoc ∧
    (cDoc.transitions.getD 0 default).condition = "True" :=
  ⟨rfl, rfl, (claim_C4_guards cCatalog cSols 4 cRecipe cUuid cSol cDoc rfl rfl).2.1⟩

/-- Witness for C5 on the Heating scenario: the first formula identifier. -/
theorem claim_C5_identifier_contract_w :
    List.find? (fun s => s.solution_id = (4 : Int)) cSols = some cSol ∧
    generate_b2mml_master_recipe cCatalog cSols 4 cRecipe cUuid = .ok cDoc ∧
    (cDoc.formula.getD 0 default).id = "001:TempCtrl01" :=
  ⟨rfl, rfl,
    (claim_C5_identifier_contract cCatalog cSols 4 cRecipe cUuid cSol cDoc rfl rfl).2.1
      0 (by decide)⟩

/-- Witness for C9: the error branch on an empty solutions list and the ok
branch on the scenario. -/
theorem claim_C9_error_policy_w :
    List.find? (fun s => s.solution_id = (4 : Int)) ([] : List Solution) = none ∧
    generate_b2mml_master_recipe cCatalog [] 4 cRecipe cUuid
      = .error "Optimal solution 4 not found in solutions.json" ∧
    (∃ doc, generate_b2mml_master_recipe cCatalog cSols 4 cRecipe cUuid = .ok doc) :=
  ⟨rfl,
    (claim_C9_error_policy cCatalog [] 4 cRecipe cUuid).1 rfl,
    (claim_C9_error_policy cCatalog cSols 4 cRecipe cUuid).2 cSol rfl⟩

/-- Witness for C7: unprefixed values pass through and the scenario's
compiled value has its prefix stripped. -/
theorem claim_C7_value_normalization_w :
    strStartsWith "42" ">=" = false ∧
    strStartsWith "42" "<=" = false ∧
    normalizeValue "42" = "42" ∧
    (cDoc.formula.getD 0 default).valueString = "60" :=
  ⟨rfl, rfl,
    claim_C7_value_normalization.2.2.1 "42" rfl rfl,
    claim_C7_value_normalization.2.2.2.2.2 cCatalog cSols 4 cRecipe cUuid cSol cDoc
      rfl rfl 0 (by decide)⟩

/-- Witness for C1 on the Heating scenario: the recipe element's parameter
reference equals the formula section's allocated identifier. -/
theorem claim_C1_cross_section_w :
    List.find? (fun s => s.solution_id = (4 : Int)) cSols = some cSol ∧
    generate_b2mml_master_recipe cCatalog cSols 4 cRecipe cUuid = .ok cDoc ∧
    ((allocParams (assignedPairs cSol cRecipe.ProcessElements)).map
        (fun t => t.2.2.ID)).Nodup ∧
    (cDoc.recipeOps.getD 0 default).paramRefs = ["001:TempCtrl01"] :=
  ⟨rfl, rfl, by decide,
    (claim_C1_cross_section cCatalog cSols 4 cRecipe cUuid cSol cDoc rfl rfl
      (by decide)).2.2.2 0 (by decide)⟩

/-- Witness for C6: an unknown resource resolves to not-found, and an exact
property-name match returns its realized-by reference. -/
theorem claim_C6_property_resolution_w :
    lookupResource cCatalog "nope" = none ∧
    find_property_realized_by cCatalog "nope" "Dosing" "Litre" = none ∧
    findInRecords "Heating" "Temperature"
        [⟨[⟨"Heating"⟩], [⟨"Temperature", some "TempCtrl01"⟩], ["HeatOp01"]⟩]
      = some "TempCtrl01" :=
  ⟨rfl,
    (claim_C6_property_resolution cCatalog "nope" "Dosing" "Litre").1 rfl,
    (claim_C6_property_resolution cCatalog "nope" "Heating" "Temperature").2.2.2.1
      ⟨[⟨"Heating"⟩], [⟨"Temperature", some "TempCtrl01"⟩], ["HeatOp01"]⟩ []
      ⟨"Temperature", some "TempCtrl01"⟩ rfl rfl⟩

/-- Witness for C10: the Dosing parameter resolves through the hard-coded
path regardless of key and unit, and the Heating parameter goes through the
generic path. -/
theorem claim_C10_dosing_special_case_w :
    resolveParamId cCatalog { cAssign with capability_details := [] } cDosingPE
        { cDosingParam with Key := "SomethingElse", UnitOfMeasure := "no-unit" }
      = find_property_realized_by cCatalog cAssign.resource "Dosing" "Litre" ∧
    resolveParamId cCatalog cAssign cHeatPE cTempParam
      = resolveParamGeneric cCatalog cAssign cTempParam :=
  ⟨(claim_C10_dosing_special_case cCatalog cAssign cDosingPE cDosingParam).1 rfl rfl
      [] "SomethingElse" "no-unit",
    (claim_C10_dosing_special_case cCatalog cAssign cHeatPE cTempParam).2 (by decide)⟩

end MasterRecipe
